import Mathlib

/-!
Shallow embedding of `flash/core/data/callback.py` (lightning-flash):
the `ControlFlow` hook dispatcher and the `BaseDataFetcher` capture buffer.

Python dicts are embedded as association lists in insertion order
(lookup finds the unique binding; assignment to an existing key keeps its
position; assignment to a fresh key appends at the end), payloads are a
type parameter `α`, and Python exceptions are an explicit `Option ε`
component threaded through the stateful operations: `(s, none)` is a
normal return leaving state `s`, `(s, some e)` is an exception `e`
propagating with the side effects performed so far kept in `s`.
-/

namespace Flash

/-- Python-dict lookup `d[key]` on an insertion-ordered association list:
`some v` when the key is bound, `none` when absent (Python would raise `KeyError`). -/
def dictGet {β : Type} : List (String × β) → String → Option β
  | [], _ => none
  | (k, v) :: rest, key => if k = key then some v else dictGet rest key

/-- Python-dict assignment `d[key] = v`: an existing binding is updated in place
(keeping its position), a fresh key is appended at the end. -/
def dictSet {β : Type} : List (String × β) → String → β → List (String × β)
  | [], key, v => [(key, v)]
  | (k, w) :: rest, key, v =>
    if k = key then (key, v) :: rest else (k, w) :: dictSet rest key v

/-- Python `d.setdefault(key, v)`: insert `key ↦ v` only when the key is absent. -/
def setdefault {β : Type} (d : List (String × β)) (key : String) (v : β) :
    List (String × β) :=
  if (dictGet d key).isSome then d else d ++ [(key, v)]

/-- The four running stages covered by the stage-prefix table
(`pytorch_lightning.trainer.states.RunningStage` restricted to the values the
data fetcher segments its buffer by). -/
inductive RunningStage : Type
  | training
  | validating
  | testing
  | predicting
deriving DecidableEq

/-- Modelled from the spec: the stage-prefix lookup table
(`flash.core.data.utils._STAGES_PREFIX`, imported by `callback.py` but absent
from the sources) — "a fixed lookup table from RunningStage to a string key used
to segment the capture buffer; must cover exactly the four RunningStage values
with no omissions".  The string keys and their order follow the
`BaseDataFetcher` docstring example, which prints the buffer as
`{train: ..., test: ..., val: ..., predict: ...}`. -/
def stagePrefixOf : RunningStage → String
  | .training => "train"
  | .testing => "test"
  | .validating => "val"
  | .predicting => "predict"

/-- Modelled from the spec: the insertion order of the stage-prefix table,
i.e. Python's `_STAGES_PREFIX.values()`, used by `reset` to key the buffer. -/
def stageKeys : List String :=
  [RunningStage.training, .testing, .validating, .predicting].map stagePrefixOf

/-- The mutable state of a `BaseDataFetcher`: the `enabled` flag, the
non-owning back-reference `_preprocess` (embedded as the identifier of the
preprocessing object, `none` before any attachment), and the `batches`
buffer — a dict from stage prefix to a dict from hook name to the ordered
list of captured payloads. -/
structure BaseDataFetcher (α : Type) where
  enabled : Bool
  _preprocess : Option Nat
  batches : List (String × List (String × List α))
deriving DecidableEq

/-- `BaseDataFetcher.reset`: replaces `batches` with one empty inner dict per
stage-prefix value. -/
def BaseDataFetcher.reset {α : Type} (f : BaseDataFetcher α) : BaseDataFetcher α :=
  { f with batches := stageKeys.map (fun k => (k, [])) }

/-- `BaseDataFetcher.__init__(enabled=False)`: sets `enabled`, clears the
back-reference, and calls `reset`. -/
def mkBaseDataFetcher {α : Type} (enabled : Bool) : BaseDataFetcher α :=
  BaseDataFetcher.reset { enabled := enabled, _preprocess := none, batches := [] }

/-- `BaseDataFetcher._store(data, fn_name, running_stage)`: when `enabled`,
fetch the per-stage dict, `setdefault(fn_name, [])`, and append `data` to the
inner list.  A fetcher always holds all four stage keys (installed by `reset`
from the constructor), so the Python `KeyError` branch of the outer lookup is
unreachable; it is embedded as the identity. -/
def BaseDataFetcher._store {α : Type} (f : BaseDataFetcher α) (data : α)
    (fn_name : String) (running_stage : RunningStage) : BaseDataFetcher α :=
  if f.enabled then
    match dictGet f.batches (stagePrefixOf running_stage) with
    | none => f
    | some store =>
      let store := setdefault store fn_name []
      let store := dictSet store fn_name ((dictGet store fn_name).getD [] ++ [data])
      { f with batches := dictSet f.batches (stagePrefixOf running_stage) store }
  else f

def BaseDataFetcher.on_load_sample {α : Type} (f : BaseDataFetcher α) (sample : α)
    (running_stage : RunningStage) : BaseDataFetcher α :=
  f._store sample "load_sample" running_stage

def BaseDataFetcher.on_pre_tensor_transform {α : Type} (f : BaseDataFetcher α) (sample : α)
    (running_stage : RunningStage) : BaseDataFetcher α :=
  f._store sample "pre_tensor_transform" running_stage

def BaseDataFetcher.on_to_tensor_transform {α : Type} (f : BaseDataFetcher α) (sample : α)
    (running_stage : RunningStage) : BaseDataFetcher α :=
  f._store sample "to_tensor_transform" running_stage

def BaseDataFetcher.on_post_tensor_transform {α : Type} (f : BaseDataFetcher α) (sample : α)
    (running_stage : RunningStage) : BaseDataFetcher α :=
  f._store sample "post_tensor_transform" running_stage

def BaseDataFetcher.on_per_batch_transform {α : Type} (f : BaseDataFetcher α) (batch : α)
    (running_stage : RunningStage) : BaseDataFetcher α :=
  f._store batch "per_batch_transform" running_stage

def BaseDataFetcher.on_collate {α : Type} (f : BaseDataFetcher α) (batch : α)
    (running_stage : RunningStage) : BaseDataFetcher α :=
  f._store batch "collate" running_stage

def BaseDataFetcher.on_per_sample_transform_on_device {α : Type} (f : BaseDataFetcher α)
    (samples : α) (running_stage : RunningStage) : BaseDataFetcher α :=
  f._store samples "per_sample_transform_on_device" running_stage

def BaseDataFetcher.on_per_batch_transform_on_device {α : Type} (f : BaseDataFetcher α)
    (batch : α) (running_stage : RunningStage) : BaseDataFetcher α :=
  f._store batch "per_batch_transform_on_device" running_stage

/-- `getattr(fetcher, name)(payload, running_stage)` restricted to the 8 hook
methods of the `FlashCallback` interface: `none` stands for the
`AttributeError` a name outside the interface would raise. -/
def fetcherHook {α : Type} (name : String) (payload : α) (running_stage : RunningStage)
    (f : BaseDataFetcher α) : Option (BaseDataFetcher α) :=
  if name = "on_load_sample" then some (f.on_load_sample payload running_stage)
  else if name = "on_pre_tensor_transform" then
    some (f.on_pre_tensor_transform payload running_stage)
  else if name = "on_to_tensor_transform" then
    some (f.on_to_tensor_transform payload running_stage)
  else if name = "on_post_tensor_transform" then
    some (f.on_post_tensor_transform payload running_stage)
  else if name = "on_per_batch_transform" then
    some (f.on_per_batch_transform payload running_stage)
  else if name = "on_collate" then some (f.on_collate payload running_stage)
  else if name = "on_per_sample_transform_on_device" then
    some (f.on_per_sample_transform_on_device payload running_stage)
  else if name = "on_per_batch_transform_on_device" then
    some (f.on_per_batch_transform_on_device payload running_stage)
  else none

/-- `BaseDataFetcher.enable()`, a `@contextmanager` whose `yield` is NOT inside
a `try/finally`: set `enabled = True`, run the caller-supplied body, and set
`enabled = False` only on normal return.  When the body raises, the exception
is thrown into the generator at the `yield` point and the statement after it
never runs, so the flag is left as the body left it. -/
def BaseDataFetcher.enable {α ε : Type} (f : BaseDataFetcher α)
    (body : BaseDataFetcher α → BaseDataFetcher α × Option ε) :
    BaseDataFetcher α × Option ε :=
  match body { f with enabled := true } with
  | (g, none) => ({ g with enabled := false }, none)
  | (g, some e) => (g, some e)

/-- A registered callback as the dispatcher sees it: one polymorphic `hook`
entry point standing for `getattr(cb, method_name)(payload, running_stage)`.
`σ` is the shared mutable state the callbacks act on, `ε` the exception type;
a call returns the updated state and `some e` when it raises. -/
structure Callback (σ α ε : Type) where
  hook : String → α → RunningStage → σ → σ × Option ε

/-- The dispatcher's loop body: invoke `hook` on each callback in list order,
threading the state; stop at the first exception, which propagates unmodified
together with the side effects performed up to that point. -/
def runCallbacksFrom {σ α ε : Type} (method_name : String) (payload : α)
    (running_stage : RunningStage) :
    List (Callback σ α ε) → σ → σ × Option ε
  | [], s => (s, none)
  | cb :: rest, s =>
    match cb.hook method_name payload running_stage s with
    | (s', none) => runCallbacksFrom method_name payload running_stage rest s'
    | (s', some e) => (s', some e)

/-- `ControlFlow(callbacks)`: an ordered list of registered callbacks. -/
structure ControlFlow (σ α ε : Type) where
  _callbacks : List (Callback σ α ε)

/-- `ControlFlow.run_for_all_callbacks(*args, method_name)`: when the callback
list is truthy (non-empty), invoke the method named `method_name` on each
callback in list order with the same `(payload, running_stage)` arguments. -/
def ControlFlow.run_for_all_callbacks {σ α ε : Type} (cf : ControlFlow σ α ε)
    (payload : α) (running_stage : RunningStage) (method_name : String) (s : σ) :
    σ × Option ε :=
  if cf._callbacks.isEmpty then (s, none)
  else runCallbacksFrom method_name payload running_stage cf._callbacks s

/-- A `BaseDataFetcher` registered as a callback: the shared state is the
fetcher itself, its `hook` dispatches by method name over the 8 hook methods
and raises `attrErr` (Python's `AttributeError`) on any other name. -/
def fetcherAsCallback {α ε : Type} (attrErr : ε) :
    Callback (BaseDataFetcher α) α ε where
  hook := fun name payload running_stage f =>
    match fetcherHook name payload running_stage f with
    | some f' => (f', none)
    | none => (f, some attrErr)

/-- Modelled from the spec: the preprocessing object's side of
`attach_to_preprocess` (`flash.core.data.process.Preprocess`, absent from the
sources) — "a preprocessing object exposing an `add_callbacks(list)`
registration API"; it owns a callback list and, at each hook point, invokes the
registered callbacks.  `pid` is the object's identity, the target of the
fetcher's non-owning back-reference. -/
structure Preprocess (σ α ε : Type) where
  pid : Nat
  _callbacks : List (Callback σ α ε)

/-- Modelled from the spec: `Preprocess.add_callbacks(list)` appends the given
callbacks to the preprocessing object's callback list. -/
def Preprocess.add_callbacks {σ α ε : Type} (p : Preprocess σ α ε)
    (cbs : List (Callback σ α ε)) : Preprocess σ α ε :=
  { p with _callbacks := p._callbacks ++ cbs }

/-- Modelled from the spec: the preprocessing object invoking its registered
callbacks at a hook point — each in registration order with identical
arguments. -/
def Preprocess.invokeCallbacks {σ α ε : Type} (p : Preprocess σ α ε)
    (method_name : String) (payload : α) (running_stage : RunningStage) (s : σ) :
    σ × Option ε :=
  runCallbacksFrom method_name payload running_stage p._callbacks s

/-- `BaseDataFetcher.attach_to_preprocess(preprocess)`: registers the fetcher
into the preprocessing object's callback list via `add_callbacks` and records
the non-owning back-reference `_preprocess`.  Returns the updated pair. -/
def BaseDataFetcher.attach_to_preprocess {α ε : Type} (f : BaseDataFetcher α)
    (p : Preprocess (BaseDataFetcher α) α ε) (attrErr : ε) :
    BaseDataFetcher α × Preprocess (BaseDataFetcher α) α ε :=
  ({ f with _preprocess := some p.pid }, p.add_callbacks [fetcherAsCallback attrErr])

/-- A probe callback for observing dispatch: it appends
`(its own identifier, method name, payload, stage)` to a shared trace and
never raises. -/
def recorder {α ε : Type} (i : Nat) :
    Callback (List (Nat × String × α × RunningStage)) α ε where
  hook := fun m payload running_stage tr => (tr ++ [(i, m, payload, running_stage)], none)

/-- The 8 hook methods of `BaseDataFetcher`, in interface order. -/
def hookFns (α : Type) :
    List (BaseDataFetcher α → α → RunningStage → BaseDataFetcher α) :=
  [BaseDataFetcher.on_load_sample, BaseDataFetcher.on_pre_tensor_transform,
   BaseDataFetcher.on_to_tensor_transform, BaseDataFetcher.on_post_tensor_transform,
   BaseDataFetcher.on_per_batch_transform, BaseDataFetcher.on_collate,
   BaseDataFetcher.on_per_sample_transform_on_device,
   BaseDataFetcher.on_per_batch_transform_on_device]

/-- All four running stages. -/
def allStages : List RunningStage :=
  [.training, .validating, .testing, .predicting]

/-- Invoke each of the 8 hooks once per running stage (all 4 stages) with the
given payload. -/
def runAllHooks {α : Type} (f : BaseDataFetcher α) (payload : α) : BaseDataFetcher α :=
  allStages.foldl
    (fun g running_stage => (hookFns α).foldl (fun g' h => h g' payload running_stage) g) f

/-! ### Association-list dictionary lemmas -/

theorem dictGet_dictSet_self {β : Type} (d : List (String × β)) (key : String) (v : β) :
    dictGet (dictSet d key v) key = some v := by
  induction d with
  | nil => simp [dictGet, dictSet]
  | cons kv rest ih =>
    obtain ⟨k, w⟩ := kv
    by_cases hk : k = key <;> simp [dictGet, dictSet, hk, ih]

theorem dictGet_dictSet_ne {β : Type} (d : List (String × β)) (key key' : String) (v : β)
    (hne : key' ≠ key) : dictGet (dictSet d key v) key' = dictGet d key' := by
  induction d with
  | nil => simp [dictGet, dictSet, Ne.symm hne]
  | cons kv rest ih =>
    obtain ⟨k, w⟩ := kv
    by_cases hk : k = key
    · subst hk
      simp [dictGet, dictSet, Ne.symm hne]
    · by_cases hk' : k = key' <;> simp [dictGet, dictSet, hne, hk, hk', ih]

theorem dictGet_append_none {β : Type} (d1 d2 : List (String × β)) (key : String)
    (h : dictGet d1 key = none) : dictGet (d1 ++ d2) key = dictGet d2 key := by
  induction d1 with
  | nil => simp
  | cons kv rest ih =>
    obtain ⟨k, w⟩ := kv
    by_cases hk : k = key
    · simp [dictGet, hk] at h
    · simp only [dictGet, hk, if_false, List.cons_append] at h ⊢
      exact ih h

theorem dictGet_setdefault_self {β : Type} (d : List (String × β)) (key : String) (v : β) :
    dictGet (setdefault d key v) key = some ((dictGet d key).getD v) := by
  unfold setdefault
  cases h : dictGet d key with
  | none => simp [h, dictGet_append_none d [(key, v)] key h, dictGet]
  | some w => simp [h]

theorem dictGet_append_some {β : Type} (d1 d2 : List (String × β)) (key : String) (v : β)
    (h : dictGet d1 key = some v) : dictGet (d1 ++ d2) key = some v := by
  induction d1 with
  | nil => simp [dictGet] at h
  | cons kv rest ih =>
    obtain ⟨k, w⟩ := kv
    by_cases hk : k = key
    · simp [dictGet, hk] at h ⊢
      exact h
    · simp [dictGet, hk] at h ⊢
      exact ih h

theorem dictGet_setdefault_ne {β : Type} (d : List (String × β)) (key key' : String) (v : β)
    (hne : key' ≠ key) : dictGet (setdefault d key v) key' = dictGet d key' := by
  unfold setdefault
  cases hd : dictGet d key with
  | some w => simp [hd]
  | none =>
    simp only [hd, Option.isSome_none, Bool.false_eq_true, if_false]
    cases h : dictGet d key' with
    | none => simp [dictGet_append_none d [(key, v)] key' h, dictGet, Ne.symm hne]
    | some w => simp [dictGet_append_some d [(key, v)] key' w h]

/-- A hook call on a disabled fetcher is the identity. -/
theorem store_disabled {α : Type} (f : BaseDataFetcher α) (h : f.enabled = false)
    (d : α) (fn : String) (rs : RunningStage) : f._store d fn rs = f := by
  simp [BaseDataFetcher._store, h]

/-- Dispatch over a list of `recorder` probes logs one entry per probe, in list
order, each carrying the identical arguments. -/
theorem runCallbacksFrom_recorders {α ε : Type} (m : String) (payload : α)
    (rs : RunningStage) (ids : List Nat) (tr : List (Nat × String × α × RunningStage)) :
    runCallbacksFrom (ε := ε) m payload rs (ids.map recorder) tr
      = (tr ++ ids.map (fun i => (i, m, payload, rs)), none) := by
  induction ids generalizing tr with
  | nil => simp [runCallbacksFrom]
  | cons i rest ih => simp [runCallbacksFrom, recorder, ih]

/-- C4: for a `ControlFlow` with registered callbacks `[c1, ..., cN]`, every
hook name, payload, and stage, `run_for_all_callbacks` invokes the named
method on `c1`, then `c2`, ..., then `cN` in registration-list order, each
invocation receiving the identical `(payload, running_stage)` arguments —
observed through probe callbacks that log `(identifier, method, payload,
stage)` into a shared trace: the final trace extends the initial one by
exactly the probes' entries in registration order, all with the same
arguments. -/
theorem controlFlow_dispatch_order_args {α ε : Type} (ids : List Nat) (payload : α)
    (rs : RunningStage) (m : String) (tr : List (Nat × String × α × RunningStage)) :
    ControlFlow.run_for_all_callbacks (ε := ε) ⟨ids.map recorder⟩ payload rs m tr
      = (tr ++ ids.map (fun i => (i, m, payload, rs)), none) := by
  cases ids with
  | nil => simp [ControlFlow.run_for_all_callbacks]
  | cons i rest =>
    have hrec := runCallbacksFrom_recorders (ε := ε) m payload rs (i :: rest) tr
    simpa [ControlFlow.run_for_all_callbacks] using hrec

/-- Splitting a dispatch: running `l1 ++ l2` runs `l1`, and continues with `l2`
only when `l1` finished without an exception. -/
theorem runCallbacksFrom_append {σ α ε : Type} (m : String) (payload : α)
    (rs : RunningStage) (l1 l2 : List (Callback σ α ε)) (s : σ) :
    runCallbacksFrom m payload rs (l1 ++ l2) s
      = match runCallbacksFrom m payload rs l1 s with
        | (s', none) => runCallbacksFrom m payload rs l2 s'
        | (s', some e) => (s', some e) := by
  induction l1 generalizing s with
  | nil => simp [runCallbacksFrom]
  | cons cb rest ih =>
    simp only [List.cons_append, runCallbacksFrom]
    cases hcb : cb.hook m payload rs s with
    | mk s' oe => cases oe <;> simp [ih]

/-- C5: when the callbacks before position `k` all succeed and the `k`-th
callback's hook raises `e`, the dispatch over `cbs1 ++ cb :: cbs2` returns the
exception `e` unmodified together with the state as the raising hook left it —
for every tail `cbs2`, so no callback after the `k`-th is invoked for that
call (fail-fast, not best-effort). -/
theorem controlFlow_fail_fast {σ α ε : Type} (cbs1 cbs2 : List (Callback σ α ε))
    (cb : Callback σ α ε) (m : String) (payload : α) (rs : RunningStage)
    (s s1 s2 : σ) (e : ε)
    (h1 : runCallbacksFrom m payload rs cbs1 s = (s1, none))
    (h2 : cb.hook m payload rs s1 = (s2, some e)) :
    ControlFlow.run_for_all_callbacks ⟨cbs1 ++ cb :: cbs2⟩ payload rs m s = (s2, some e) := by
  have hne : ((cbs1 ++ cb :: cbs2).isEmpty) = false := by cases cbs1 <;> rfl
  simp [ControlFlow.run_for_all_callbacks, hne, runCallbacksFrom_append, h1,
    runCallbacksFrom, h2]

/-- Witness for C5: three callbacks on a shared counter — the first increments,
the second multiplies by 10 and raises `99`, the third would add 100; from
state `0` the dispatch returns `(10, some 99)`: the exception surfaces
unchanged and the third callback never ran (it would have produced `110`). -/
theorem controlFlow_fail_fast_witness :
    ControlFlow.run_for_all_callbacks
      (⟨[⟨fun _ _ _ s => (s + 1, none)⟩, ⟨fun _ _ _ s => (s * 10, some 99)⟩,
         ⟨fun _ _ _ s => (s + 100, none)⟩]⟩ : ControlFlow Nat Nat Nat)
      0 .training "on_collate" 0 = (10, some 99) :=
  controlFlow_fail_fast [⟨fun _ _ _ s => (s + 1, none)⟩]
    [⟨fun _ _ _ s => (s + 100, none)⟩] ⟨fun _ _ _ s => (s * 10, some 99)⟩
    "on_collate" 0 .training 0 1 10 99 rfl rfl

/-- C7: for a `ControlFlow` whose registered-callback list is empty,
`run_for_all_callbacks` is a no-op for every hook name, payload, stage, and
state: it returns the state unchanged and raises no exception. -/
theorem run_for_all_callbacks_empty_noop {σ α ε : Type} (payload : α)
    (rs : RunningStage) (m : String) (s : σ) :
    ControlFlow.run_for_all_callbacks (⟨[]⟩ : ControlFlow σ α ε) payload rs m s
      = (s, none) := rfl

/-- On a disabled fetcher, invoking all 8 hooks across all 4 stages changes
nothing. -/
theorem runAllHooks_disabled {α : Type} (f : BaseDataFetcher α) (payload : α)
    (h : f.enabled = false) : runAllHooks f payload = f := by
  simp [runAllHooks, allStages, hookFns, List.foldl,
    BaseDataFetcher.on_load_sample, BaseDataFetcher.on_pre_tensor_transform,
    BaseDataFetcher.on_to_tensor_transform, BaseDataFetcher.on_post_tensor_transform,
    BaseDataFetcher.on_per_batch_transform, BaseDataFetcher.on_collate,
    BaseDataFetcher.on_per_sample_transform_on_device,
    BaseDataFetcher.on_per_batch_transform_on_device, store_disabled f h]

/-- C2: on a fetcher with `enabled = false`, every one of the 8 hook
invocations (any method name, payload, stage — `getD f` covers both the
dispatched hook and the `AttributeError` fallback) leaves `batches` unchanged;
and after invoking all 8 hooks once per stage across all 4 stages on a fetcher
constructed with `enabled=False`, `batches` is the all-empty four-stage
mapping. -/
theorem disabled_fetcher_captures_nothing {α : Type} (f : BaseDataFetcher α)
    (payload : α) (h : f.enabled = false) :
    (∀ (name : String) (p : α) (rs : RunningStage),
        ((fetcherHook name p rs f).getD f).batches = f.batches)
    ∧ (runAllHooks (mkBaseDataFetcher (α := α) false) payload).batches
        = [("train", []), ("test", []), ("val", []), ("predict", [])] := by
  constructor
  · intro name p rs
    unfold fetcherHook
    split_ifs <;>
      simp [BaseDataFetcher.on_load_sample, BaseDataFetcher.on_pre_tensor_transform,
        BaseDataFetcher.on_to_tensor_transform, BaseDataFetcher.on_post_tensor_transform,
        BaseDataFetcher.on_per_batch_transform, BaseDataFetcher.on_collate,
        BaseDataFetcher.on_per_sample_transform_on_device,
        BaseDataFetcher.on_per_batch_transform_on_device, store_disabled f h]
  · rw [runAllHooks_disabled _ _ rfl]
    rfl

/-- Witness for C2: a concrete disabled fetcher over `Nat` payloads — a hook
call leaves `batches` unchanged, and the 8-hooks-times-4-stages sweep leaves
the all-empty four-stage mapping. -/
theorem disabled_fetcher_captures_nothing_witness :
    ((fetcherHook "on_collate" (3 : Nat) .training (mkBaseDataFetcher false)).getD
        (mkBaseDataFetcher false)).batches = (mkBaseDataFetcher (α := Nat) false).batches
    ∧ (runAllHooks (mkBaseDataFetcher (α := Nat) false) 0).batches
        = [("train", []), ("test", []), ("val", []), ("predict", [])] :=
  ⟨(disabled_fetcher_captures_nothing (mkBaseDataFetcher false) 0 rfl).1
      "on_collate" 3 .training,
   (disabled_fetcher_captures_nothing (mkBaseDataFetcher false) 0 rfl).2⟩

/-- C3: on a fetcher with `enabled = true`, a hook invocation with payload `d`
and stage `rs` appends exactly `d` to the end of
`batches[stagePrefixOf rs][fn]`, creating the inner list (as empty) on first
use; successive captures for the same stage and hook name therefore appear in
invocation order — instantiated by `on_load_sample 5 validating` then
`on_load_sample 6 validating` yielding `[5, 6]`. -/
theorem enabled_fetcher_appends_in_order {α : Type} (f : BaseDataFetcher α)
    (d : α) (fn : String) (rs : RunningStage) (store : List (String × List α))
    (he : f.enabled = true)
    (hs : dictGet f.batches (stagePrefixOf rs) = some store) :
    ((dictGet (f._store d fn rs).batches (stagePrefixOf rs)).bind
        (fun st => dictGet st fn)) = some ((dictGet store fn).getD [] ++ [d])
    ∧ (dictGet ((((mkBaseDataFetcher (α := Nat) true).on_load_sample 5
          .validating).on_load_sample 6 .validating).batches) "val").bind
        (fun st => dictGet st "load_sample") = some [5, 6] := by
  refine ⟨?_, by decide⟩
  simp [BaseDataFetcher._store, he, hs, dictGet_dictSet_self, dictGet_setdefault_self]

/-- Witness for C3: a freshly enabled fetcher over `Nat`, one capture of `5`
under `load_sample` at the validating stage — the inner list is created and
holds exactly `[5]`. -/
theorem enabled_fetcher_appends_in_order_witness :
    ((dictGet ((mkBaseDataFetcher (α := Nat) true)._store 5 "load_sample"
        .validating).batches "val").bind (fun st => dictGet st "load_sample"))
      = some [5]
    ∧ (dictGet ((((mkBaseDataFetcher (α := Nat) true).on_load_sample 5
          .validating).on_load_sample 6 .validating).batches) "val").bind
        (fun st => dictGet st "load_sample") = some [5, 6] :=
  enabled_fetcher_appends_in_order (mkBaseDataFetcher true) 5 "load_sample"
    .validating [] rfl rfl

/-- C6: `reset()` on any fetcher — in particular after an arbitrary sequence of
captures folded onto it — makes `batches` the four-stage structure mapping each
stage prefix to an empty inner mapping, discarding all captured payloads. -/
theorem reset_restores_empty_structure {α : Type} (f : BaseDataFetcher α)
    (ops : List (α × String × RunningStage)) :
    (BaseDataFetcher.reset f).batches
      = [("train", []), ("test", []), ("val", []), ("predict", [])]
    ∧ (BaseDataFetcher.reset
        (ops.foldl (fun g op => g._store op.1 op.2.1 op.2.2) f)).batches
      = [("train", []), ("test", []), ("val", []), ("predict", [])] :=
  ⟨rfl, rfl⟩

/-- C10: a single `_store` call on an enabled fetcher with stage `rs` and hook
name `fn` modifies only the inner list `batches[stagePrefixOf rs][fn]`: every
other stage key `k`, every other hook name `h` under the same stage, the
`enabled` flag, and the `_preprocess` back-reference are unchanged. -/
theorem store_frame {α : Type} (f : BaseDataFetcher α) (d : α) (fn : String)
    (rs : RunningStage) (k h : String) (he : f.enabled = true)
    (hk : k ≠ stagePrefixOf rs) (hh : h ≠ fn) :
    (f._store d fn rs).enabled = f.enabled
    ∧ (f._store d fn rs)._preprocess = f._preprocess
    ∧ dictGet (f._store d fn rs).batches k = dictGet f.batches k
    ∧ (dictGet (f._store d fn rs).batches (stagePrefixOf rs)).map
        (fun st => dictGet st h)
      = (dictGet f.batches (stagePrefixOf rs)).map (fun st => dictGet st h) := by
  cases hs : dictGet f.batches (stagePrefixOf rs) with
  | none =>
    have hid : f._store d fn rs = f := by
      simp [BaseDataFetcher._store, he, hs]
    rw [hid, hs]
    exact ⟨rfl, rfl, rfl, rfl⟩
  | some store =>
    have hb : (f._store d fn rs).batches
        = dictSet f.batches (stagePrefixOf rs)
            (dictSet (setdefault store fn []) fn
              ((dictGet (setdefault store fn []) fn).getD [] ++ [d])) := by
      simp [BaseDataFetcher._store, he, hs]
    have hen : (f._store d fn rs).enabled = f.enabled := by
      simp [BaseDataFetcher._store, he, hs]
    have hpre : (f._store d fn rs)._preprocess = f._preprocess := by
      simp [BaseDataFetcher._store, he, hs]
    refine ⟨hen, hpre, ?_, ?_⟩
    · rw [hb]
      exact dictGet_dictSet_ne _ _ _ _ hk
    · rw [hb, dictGet_dictSet_self]
      simp [dictGet_dictSet_ne _ _ _ _ hh, dictGet_setdefault_ne _ _ _ _ hh]

/-- Witness for C10: an enabled fetcher over `Nat` capturing `1` under
`load_sample` at the training stage leaves the `val` stage entry, the
`collate` entries of the training stage, the `enabled` flag and the
back-reference untouched. -/
theorem store_frame_witness :
    ((mkBaseDataFetcher (α := Nat) true)._store 1 "load_sample" .training).enabled
      = (mkBaseDataFetcher (α := Nat) true).enabled
    ∧ ((mkBaseDataFetcher (α := Nat) true)._store 1 "load_sample" .training)._preprocess
      = (mkBaseDataFetcher (α := Nat) true)._preprocess
    ∧ dictGet ((mkBaseDataFetcher (α := Nat) true)._store 1 "load_sample"
        .training).batches "val" = dictGet (mkBaseDataFetcher (α := Nat) true).batches "val"
    ∧ (dictGet ((mkBaseDataFetcher (α := Nat) true)._store 1 "load_sample"
        .training).batches "train").map (fun st => dictGet st "collate")
      = (dictGet (mkBaseDataFetcher (α := Nat) true).batches "train").map
          (fun st => dictGet st "collate") :=
  store_frame (mkBaseDataFetcher true) 1 "load_sample" .training "val" "collate"
    rfl (by decide) (by decide)

/-- C1 counterexample: on a concrete fetcher constructed disabled, running the
`enable` scope with a body that raises immediately leaves `enabled = true`
after the scope exits — refuting the claim that `enabled` is false immediately
after scope exit on the error path. -/
theorem enable_error_path_counterexample :
    ((mkBaseDataFetcher (α := Nat) false).enable
        (fun g => (g, some (0 : Nat)))).1.enabled = true := rfl

/-- C1 (amended): entering the `enable` scope sets `enabled = true` for the
body; when the body returns normally, `enabled` is false immediately after the
scope exits and no exception escapes; when the body raises, the exception
propagates but `enabled` is NOT restored — the fetcher is left exactly as the
body left it (so `enabled` stays true when the body never touched the flag). -/
theorem enable_scoped_amended {α ε : Type} (f g : BaseDataFetcher α)
    (body : BaseDataFetcher α → BaseDataFetcher α × Option ε) (e : ε) :
    (({ f with enabled := true } : BaseDataFetcher α).enabled = true)
    ∧ (body { f with enabled := true } = (g, none) →
        (f.enable body).2 = none ∧ (f.enable body).1.enabled = false)
    ∧ (body { f with enabled := true } = (g, some e) →
        f.enable body = (g, some e)) := by
  refine ⟨rfl, fun hn => ?_, fun hx => ?_⟩
  · simp [BaseDataFetcher.enable, hn]
  · simp [BaseDataFetcher.enable, hx]

/-- Witness for C1 (amended): with a body that returns normally the flag is
false after the scope; with a body that raises without touching the flag the
flag is still true after the scope. -/
theorem enable_scoped_amended_witness :
    ((mkBaseDataFetcher (α := Nat) false).enable
        (fun g => (g, (none : Option Nat)))).1.enabled = false
    ∧ ((mkBaseDataFetcher (α := Nat) false).enable
        (fun g => (g, some (1 : Nat)))).1.enabled = true :=
  ⟨((enable_scoped_amended (mkBaseDataFetcher false)
      { mkBaseDataFetcher (α := Nat) false with enabled := true }
      (fun g => (g, (none : Option Nat))) 1).2.1 rfl).2,
   by
    rw [(enable_scoped_amended (mkBaseDataFetcher false)
      { mkBaseDataFetcher (α := Nat) false with enabled := true }
      (fun g => (g, some (1 : Nat))) 1).2.2 rfl]⟩

/-- C9: `enable` scopes are not reentrant.  When an inner scope body returns
normally, the fetcher right after the inner scope has `enabled = false`, and a
subsequent `_store` is dropped — even when the inner scope sits inside an
outer `enable` scope, so the outer scope's remaining captures are silently
lost: the fully nested run (outer scope whose body opens and closes an inner
scope and then attempts a capture) leaves `batches` exactly as it started. -/
theorem enable_not_reentrant {α ε : Type} (f f1 g : BaseDataFetcher α)
    (ib : BaseDataFetcher α → BaseDataFetcher α × Option ε)
    (hib : ib { f1 with enabled := true } = (g, none))
    (d : α) (fn : String) (rs : RunningStage) :
    (f1.enable ib).1.enabled = false
    ∧ ((f1.enable ib).1)._store d fn rs = (f1.enable ib).1
    ∧ ((f.enable (fun f' =>
          ((((f'.enable (fun g' => (g', (none : Option ε)))).1)._store d fn rs),
            (none : Option ε)))).1).batches = f.batches := by
  have h1 : (f1.enable ib).1 = { g with enabled := false } := by
    simp [BaseDataFetcher.enable, hib]
  refine ⟨by rw [h1], ?_, rfl⟩
  rw [h1]
  exact store_disabled { g with enabled := false } rfl d fn rs

/-- Witness for C9: a concrete nested run over `Nat` — after the inner scope
the flag is down, the capture of `5` under `load_sample` is dropped, and the
nested scopes leave `batches` all-empty. -/
theorem enable_not_reentrant_witness :
    ((mkBaseDataFetcher (α := Nat) false).enable
        (fun g => (g, (none : Option Nat)))).1.enabled = false
    ∧ (((mkBaseDataFetcher (α := Nat) false).enable
        (fun g => (g, (none : Option Nat)))).1)._store 5 "load_sample" .validating
      = ((mkBaseDataFetcher (α := Nat) false).enable
          (fun g => (g, (none : Option Nat)))).1
    ∧ (((mkBaseDataFetcher (α := Nat) false).enable (fun f' =>
          ((((f'.enable (fun g' => (g', (none : Option Nat)))).1)._store 5
              "load_sample" .validating), (none : Option Nat)))).1).batches
      = (mkBaseDataFetcher (α := Nat) false).batches :=
  enable_not_reentrant (mkBaseDataFetcher false) (mkBaseDataFetcher false)
    { mkBaseDataFetcher (α := Nat) false with enabled := true }
    (fun g => (g, none)) rfl 5 "load_sample" .validating

/-- C8: `attach_to_preprocess` records only a non-owning back-reference on the
fetcher (its `enabled` flag and `batches` are untouched) and registers the
fetcher in the preprocessing object's callback list, after which the
preprocessing object invoking its registered callbacks behaves exactly —
same final state, same captured `batches`, same exception outcome — as a
`ControlFlow` whose callback list holds the previously registered callbacks
followed by the fetcher directly. -/
theorem attach_equiv_manual_registration {α ε : Type} (f : BaseDataFetcher α)
    (p : Preprocess (BaseDataFetcher α) α ε) (e : ε) (name : String)
    (payload : α) (rs : RunningStage) (s : BaseDataFetcher α) :
    ((f.attach_to_preprocess p e).1)._preprocess = some p.pid
    ∧ ((f.attach_to_preprocess p e).1).enabled = f.enabled
    ∧ ((f.attach_to_preprocess p e).1).batches = f.batches
    ∧ ((f.attach_to_preprocess p e).2).invokeCallbacks name payload rs s
        = ControlFlow.run_for_all_callbacks
            ⟨p._callbacks ++ [fetcherAsCallback e]⟩ payload rs name s := by
  refine ⟨rfl, rfl, rfl, ?_⟩
  have hne : ((p._callbacks ++ [fetcherAsCallback (α := α) e]).isEmpty) = false := by
    cases hp : p._callbacks <;> rfl
  simp [BaseDataFetcher.attach_to_preprocess, Preprocess.add_callbacks,
    Preprocess.invokeCallbacks, ControlFlow.run_for_all_callbacks, hne]

end Flash
